import Mathlib

/-!
Shallow embedding of the countdown-reconciliation and live-feed-buffer logic
of the arb-viem demo dashboard.

The countdown reconciler appears twice in the source, with the same resync
formula: once in `AuctionStatus` (two phase-dependent countdowns,
`localCountdown` for the bidding phase and `localRoundStartCountdown` for the
closing/resolving phases) and once in `ExpressLaneController` (a single
`localTimeRemaining` countdown).  The stream buffer lives in
`StreamTimeboostedTxsComponent`.

JavaScript numbers holding whole seconds or millisecond timestamps are
modelled as `Int`; `number | null` state is `Option Int`.  The JS truthiness
test `!x` on such a value is falsy exactly when the value is `null` or `0`,
which the embedding spells out.
-/

/-- Auction phase, as returned by `getAuctionStatus` (`currentPhase`). -/
inductive Phase where
  | bidding
  | closing
  | resolving
  | active
  | unknown
deriving DecidableEq, Repr

/-- The fields of an auction-status poll result that the reconciler reads. -/
structure AuctionInfo where
  currentPhase : Phase
  timeUntilAuctionCloses : Int
  timeUntilRoundStarts : Int
deriving DecidableEq, Repr

/-- Component state of `AuctionStatus`: fetched status, error/loading flags,
the two local countdowns and `lastSyncTimeRef`. -/
structure AuctionState where
  status : Option AuctionInfo
  error : Option String
  loading : Bool
  bidCountdown : Option Int
  roundStartCountdown : Option Int
  lastSync : Int
deriving DecidableEq, Repr

/-- JS truthiness: `!x` for `x : number | null` holding the countdown — falsy
exactly for `null` and `0`. -/
def jsFalsyNum (d : Option Int) : Prop :=
  d = none ∨ d = some 0

instance (d : Option Int) : Decidable (jsFalsyNum d) := by
  unfold jsFalsyNum; infer_instance

/-- The resync condition as written in the source:
`!local || timeSinceLastSync > 3000 || Math.abs(local - newVal) > 2`.
(When `d = none` the first disjunct short-circuits the JS expression, so the
`getD 0` default in the third disjunct is never the deciding factor.) -/
def resyncNeeded (d : Option Int) (elapsed newVal : Int) : Prop :=
  jsFalsyNum d ∨ elapsed > 3000 ∨ (d.getD 0 - newVal).natAbs > 2

instance (d : Option Int) (e v : Int) : Decidable (resyncNeeded d e v) := by
  unfold resyncNeeded; infer_instance

/-- The `[status]` effect of `AuctionStatus` reacting to a successful poll:
per-phase resync of the matching countdown, clearing of the other countdown,
and the unconditional `lastSyncTimeRef.current = now` at the end. -/
def onStatusSample (now : Int) (st : AuctionInfo) (s : AuctionState) : AuctionState :=
  match st.currentPhase with
  | .bidding =>
    { s with
      status := some st,
      bidCountdown :=
        if resyncNeeded s.bidCountdown (now - s.lastSync) st.timeUntilAuctionCloses
        then some st.timeUntilAuctionCloses else s.bidCountdown,
      roundStartCountdown := none,
      lastSync := now }
  | .closing | .resolving =>
    { s with
      status := some st,
      bidCountdown := none,
      roundStartCountdown :=
        if resyncNeeded s.roundStartCountdown (now - s.lastSync) st.timeUntilRoundStarts
        then some st.timeUntilRoundStarts else s.roundStartCountdown,
      lastSync := now }
  | .active | .unknown =>
    { s with
      status := some st,
      bidCountdown := none,
      roundStartCountdown := none,
      lastSync := now }

/-- The interval body shared by all three countdowns:
`prev => { if (prev === null || prev <= 0) return null; return prev - 1; }`. -/
def tickCountdown : Option Int → Option Int
  | none => none
  | some v => if v ≤ 0 then none else some (v - 1)

/-- `tickCountdown` iterated `n` times. -/
def tickN : Nat → Option Int → Option Int
  | 0, d => d
  | n + 1, d => tickN n (tickCountdown d)

/-- One event-loop action on the `AuctionStatus` component: a successful poll
sample, or a firing of one of the two one-second intervals. -/
inductive AuctionAction where
  | sample (now : Int) (st : AuctionInfo)
  | tickBid
  | tickRound
deriving Repr

def stepAuction : AuctionAction → AuctionState → AuctionState
  | .sample now st, s => onStatusSample now st s
  | .tickBid, s => { s with bidCountdown := tickCountdown s.bidCountdown }
  | .tickRound, s => { s with roundStartCountdown := tickCountdown s.roundStartCountdown }

/-- Initial `AuctionStatus` render state: no status, no error, no countdowns,
`lastSyncTimeRef` initialised to 0. -/
def initAuction : AuctionState :=
  ⟨none, none, false, none, none, 0⟩

def runAuction : List AuctionAction → AuctionState → AuctionState
  | [], s => s
  | a :: rest, s => runAuction rest (stepAuction a s)

/-- The `catch` branch of `fetchStatus` in `AuctionStatus`: records the error
message; the `finally` clears the loading flag; nothing else is touched. -/
def auctionPollFailure (msg : String) (s : AuctionState) : AuctionState :=
  { s with error := some msg, loading := false }

/-- The fields of a `getExpressLaneController` poll result that the
reconciler reads.  `currentController` is an address string or `null`. -/
structure ControllerInfo where
  currentController : Option String
  timeRemainingInRound : Int
deriving DecidableEq, Repr

/-- JS truthiness of `controller.currentController` (an address string):
truthy exactly when present and non-empty. -/
def hasCurrentController (c : ControllerInfo) : Bool :=
  match c.currentController with
  | none => false
  | some a => a != ""

/-- Component state of `ExpressLaneController`: fetched controller info,
error/loading flags, `localTimeRemaining` and `lastSyncTimeRef`. -/
structure ControllerState where
  controller : Option ControllerInfo
  error : Option String
  loading : Bool
  displayed : Option Int
  lastSync : Int
deriving DecidableEq, Repr

/-- The `[controller]` effect of `ExpressLaneController` reacting to a new
poll result: with no current controller it clears the countdown and returns
early (before `lastSyncTimeRef` is written); otherwise it applies the resync
formula and records the sync time. -/
def onControllerSample (now : Int) (c : ControllerInfo) (s : ControllerState) :
    ControllerState :=
  if hasCurrentController c then
    { s with
      controller := some c,
      displayed :=
        if resyncNeeded s.displayed (now - s.lastSync) c.timeRemainingInRound
        then some c.timeRemainingInRound else s.displayed,
      lastSync := now }
  else
    { s with controller := some c, displayed := none }

/-- Initial `ExpressLaneController` render state. -/
def initController : ControllerState :=
  ⟨none, none, false, none, 0⟩

/-- The `catch` branch of `fetchController` in `ExpressLaneController`. -/
def controllerPollFailure (msg : String) (s : ControllerState) : ControllerState :=
  { s with error := some msg, loading := false }

/-- The one-second interval of `ExpressLaneController` applied to the whole
component state. -/
def tickControllerState (s : ControllerState) : ControllerState :=
  { s with displayed := tickCountdown s.displayed }

/-- Payload of a timeboosted-transaction stream event. -/
structure TimeboostedTx where
  hash : String
  blockNumber : Nat
  transactionIndex : Nat
deriving DecidableEq, Repr

/-- `TransactionWithTimestamp`: the payload plus the `Date.now()` stamp added
on receipt. -/
structure TimedTx where
  tx : TimeboostedTx
  timestamp : Int
deriving DecidableEq, Repr

/-- Component state of `StreamTimeboostedTxsComponent`. -/
structure StreamState where
  transactions : List TimedTx
  isStreaming : Bool
  error : Option String
  totalCount : Nat
deriving DecidableEq, Repr

/-- `startStreaming` before subscribing: streaming on, error and buffer and
counter cleared. -/
def startStreaming (s : StreamState) : StreamState :=
  { s with isStreaming := true, error := none, transactions := [], totalCount := 0 }

/-- The `onTransaction` callback: stamp with the current time, prepend,
truncate with `prev.slice(0, 19)`, and bump the total counter. -/
def onTransaction (now : Int) (t : TimeboostedTx) (s : StreamState) : StreamState :=
  { s with
    transactions := ⟨t, now⟩ :: s.transactions.take 19,
    totalCount := s.totalCount + 1 }

/-- The `onError` callback: record `err.message || 'Streaming error occurred'`
and stop streaming.  The buffer and counter are not touched. -/
def onStreamError (msg : String) (s : StreamState) : StreamState :=
  { s with
    error := some (if msg = "" then "Streaming error occurred" else msg),
    isStreaming := false }

/-- Deliver a list of `(arrival time, payload)` events in order. -/
def processEvents : List (Int × TimeboostedTx) → StreamState → StreamState
  | [], s => s
  | (t, e) :: rest, s => processEvents rest (onTransaction t e s)

/-- The stamped form of an arrival. -/
def stampTx (p : Int × TimeboostedTx) : TimedTx :=
  ⟨p.2, p.1⟩

/-- The per-render freshness test `Date.now() - tx.timestamp < 3000`. -/
def isNew (now : Int) (e : TimedTx) : Bool :=
  decide (now - e.timestamp < 3000)

/-- At most one of the two `AuctionStatus` countdowns is present. -/
def atMostOneCountdown (s : AuctionState) : Prop :=
  s.bidCountdown = none ∨ s.roundStartCountdown = none

/-- The resync condition worded as in the specification, amended for the
truthiness of `0`: absent or zero displayed value, staleness beyond 3000 ms,
or drift beyond 2 seconds. -/
def resyncSpecCond (d : Option Int) (elapsed v : Int) : Prop :=
  d = none ∨ d = some 0 ∨ elapsed > 3000 ∨ ∃ x, d = some x ∧ (x - v).natAbs > 2

lemma resync_iff (d : Option Int) (e v : Int) :
    resyncNeeded d e v ↔ resyncSpecCond d e v := by
  cases d with
  | none => simp [resyncNeeded, resyncSpecCond, jsFalsyNum]
  | some x =>
    simp only [resyncNeeded, resyncSpecCond, jsFalsyNum, Option.getD_some,
      Option.some.injEq, reduceCtorEq, false_or, exists_eq_left']

lemma tickN_le (N : Nat) : ∀ V : Int, (N : Int) ≤ V →
    tickN N (some V) = some (V - N) := by
  induction N with
  | zero => intro V _; simp [tickN]
  | succ n ih =>
    intro V hV
    have h1 : ¬ V ≤ 0 := by push_cast at hV; omega
    have h2 : (n : Int) ≤ V - 1 := by push_cast at hV ⊢; omega
    simp only [tickN, tickCountdown, if_neg h1]
    rw [ih (V - 1) h2]
    congr 1
    push_cast
    ring

lemma tickN_done (N : Nat) : ∀ V : Int, (N : Int) = V →
    tickN (N + 1) (some V) = none := by
  induction N with
  | zero =>
    intro V hV
    simp [tickN, tickCountdown, ← hV]
  | succ n ih =>
    intro V hV
    have h1 : ¬ V ≤ 0 := by omega
    have h2 : (n : Int) = V - 1 := by push_cast at hV ⊢; omega
    have hstep : tickCountdown (some V) = some (V - 1) := by
      simp [tickCountdown, if_neg h1]
    calc tickN (n + 1 + 1) (some V)
        = tickN (n + 1) (tickCountdown (some V)) := rfl
      _ = tickN (n + 1) (some (V - 1)) := by rw [hstep]
      _ = none := ih (V - 1) h2

/-- C2 (corrected).  `tickCountdown` decrements a positive displayed value by
1 — including a decrement from 1 to 0, which is kept, not cleared; a tick on
a value that is already ≤ 0 clears to absent.  Consequently `N ≤ V` ticks
from `V` leave `V − N`, and from `V` it takes exactly `V + 1` ticks (not `V`)
to reach absent. -/
theorem tick_decrement_and_finish :
    (∀ v : Int, 1 ≤ v → tickCountdown (some v) = some (v - 1)) ∧
    (∀ v : Int, v ≤ 0 → tickCountdown (some v) = none) ∧
    (∀ (N : Nat) (V : Int), (N : Int) ≤ V → tickN N (some V) = some (V - N)) ∧
    (∀ (N : Nat) (V : Int), (N : Int) = V → tickN (N + 1) (some V) = none) := by
  refine ⟨?_, ?_, tickN_le, tickN_done⟩
  · intro v hv
    simp [tickCountdown, show ¬ v ≤ 0 by omega]
  · intro v hv
    simp [tickCountdown, hv]

/-- Witness for `tick_decrement_and_finish` at concrete inputs: a tick from 5
gives 4, a tick at 0 clears, 3 ticks from 7 give 4, and 8 ticks from 7 give
absent. -/
theorem tick_decrement_and_finish_witness :
    tickCountdown (some (5 : Int)) = some 4 ∧
    tickCountdown (some (0 : Int)) = none ∧
    tickN 3 (some (7 : Int)) = some 4 ∧
    tickN 8 (some (7 : Int)) = none :=
  ⟨tick_decrement_and_finish.1 5 (by decide),
   tick_decrement_and_finish.2.1 0 (by decide),
   by simpa using tick_decrement_and_finish.2.2.1 3 7 (by decide),
   tick_decrement_and_finish.2.2.2 7 7 (by decide)⟩

/-- C2 counterexample: a tick on displayed value 1 produces 0 and keeps it
displayed — the result of the decrement is ≤ 0 yet the value is not cleared,
and one tick does not suffice to make a displayed 1 absent. -/
theorem tick_keeps_zero_counterexample :
    tickCountdown (some (1 : Int)) = some 0 ∧
    tickN 1 (some (1 : Int)) ≠ none := by
  decide

/-- C10.  A displayed value of exactly 0 is falsy in the source's
`!localCountdown` / `!localTimeRemaining` test, so every sample call applies
the new value: in the controller reconciler whenever a current controller is
present, and in the auction reconciler whenever the phase is `bidding` —
regardless of how recent the last sync was and of the 2-second tolerance. -/
theorem zero_countdown_always_resynced
    (now : Int) (c : ControllerInfo) (s : ControllerState)
    (hc : hasCurrentController c = true) (h0 : s.displayed = some 0)
    (st : AuctionInfo) (sa : AuctionState)
    (hb : st.currentPhase = Phase.bidding) (ha : sa.bidCountdown = some 0) :
    (onControllerSample now c s).displayed = some c.timeRemainingInRound ∧
    (onStatusSample now st sa).bidCountdown = some st.timeUntilAuctionCloses := by
  constructor
  · have hr : resyncNeeded s.displayed (now - s.lastSync) c.timeRemainingInRound :=
      Or.inl (Or.inr h0)
    simp [onControllerSample, hc, if_pos hr]
  · obtain ⟨ph, tA, tR⟩ := st
    simp only [AuctionInfo.currentPhase] at hb
    subst hb
    have hr : resyncNeeded sa.bidCountdown (now - sa.lastSync) tA :=
      Or.inl (Or.inr ha)
    simp [onStatusSample, if_pos hr]

/-- Witness for `zero_countdown_always_resynced`: displayed value 0, a sample
1000 ms after the last sync with a value within the 2-second tolerance, still
replaced in both reconcilers. -/
theorem zero_countdown_always_resynced_witness :
    (onControllerSample 1000 ⟨some "0xa", 1⟩
      ⟨none, none, false, some 0, 0⟩).displayed = some 1 ∧
    (onStatusSample 1000 ⟨Phase.bidding, 2, 9⟩
      ⟨none, none, false, some 0, none, 0⟩).bidCountdown = some 2 :=
  zero_countdown_always_resynced 1000 ⟨some "0xa", 1⟩
    ⟨none, none, false, some 0, 0⟩ (by decide) rfl
    ⟨Phase.bidding, 2, 9⟩ ⟨none, none, false, some 0, none, 0⟩ rfl rfl

/-- C1 (corrected).  Resync policy of both reconcilers, with condition (a)
amended from "no prior displayed value exists" to "no prior displayed value
exists or it is 0" (JS truthiness): when a current controller is present
(resp. the phase is `bidding`), the sample value replaces the displayed value
exactly when the amended condition, staleness beyond 3000 ms, or drift beyond
2 seconds holds; otherwise the displayed value is unchanged by the call. -/
theorem resync_policy
    (now : Int) (c : ControllerInfo) (s : ControllerState)
    (hc : hasCurrentController c = true)
    (st : AuctionInfo) (sa : AuctionState)
    (hb : st.currentPhase = Phase.bidding) :
    (resyncSpecCond s.displayed (now - s.lastSync) c.timeRemainingInRound →
      (onControllerSample now c s).displayed = some c.timeRemainingInRound) ∧
    (¬ resyncSpecCond s.displayed (now - s.lastSync) c.timeRemainingInRound →
      (onControllerSample now c s).displayed = s.displayed) ∧
    (resyncSpecCond sa.bidCountdown (now - sa.lastSync) st.timeUntilAuctionCloses →
      (onStatusSample now st sa).bidCountdown = some st.timeUntilAuctionCloses) ∧
    (¬ resyncSpecCond sa.bidCountdown (now - sa.lastSync) st.timeUntilAuctionCloses →
      (onStatusSample now st sa).bidCountdown = sa.bidCountdown) := by
  obtain ⟨ph, tA, tR⟩ := st
  simp only [AuctionInfo.currentPhase] at hb
  subst hb
  refine ⟨?_, ?_, ?_, ?_⟩
  · intro h
    simp [onControllerSample, hc, if_pos ((resync_iff _ _ _).2 h)]
  · intro h
    simp [onControllerSample, hc,
      if_neg (fun hr => h ((resync_iff _ _ _).1 hr))]
  · intro h
    simp only [AuctionInfo.timeUntilAuctionCloses] at h ⊢
    simp [onStatusSample, if_pos ((resync_iff _ _ _).2 h)]
  · intro h
    simp only [AuctionInfo.timeUntilAuctionCloses] at h ⊢
    simp [onStatusSample, if_neg (fun hr => h ((resync_iff _ _ _).1 hr))]

/-- C1 counterexample: displayed value 0 (present), sample at 1000 ms since
the last sync with value 1, within the 2-second tolerance — the claim says
the displayed value is unchanged, but the call replaces 0 with 1. -/
theorem resync_policy_counterexample :
    (⟨none, none, false, some 0, 0⟩ : ControllerState).displayed = some 0 ∧
    ¬ ((1000 : Int) - (⟨none, none, false, some 0, 0⟩ : ControllerState).lastSync > 3000) ∧
    ((0 : Int) - 1).natAbs ≤ 2 ∧
    (onControllerSample 1000 ⟨some "0xa", 1⟩
      ⟨none, none, false, some 0, 0⟩).displayed = some 1 := by
  refine ⟨rfl, by decide, by decide, by decide⟩

/-- Witness for `resync_policy`: an absent displayed value is replaced, and a
present one within both windows is kept, in the controller reconciler; the
same two situations in the bidding branch of the auction reconciler. -/
theorem resync_policy_witness :
    (onControllerSample 100 ⟨some "0xa", 30⟩ initController).displayed = some 30 ∧
    (onControllerSample 100 ⟨some "0xa", 30⟩
      ⟨none, none, false, some 29, 0⟩).displayed = some 29 ∧
    (onStatusSample 100 ⟨Phase.bidding, 40, 9⟩ initAuction).bidCountdown = some 40 ∧
    (onStatusSample 100 ⟨Phase.bidding, 40, 9⟩
      ⟨none, none, false, some 41, none, 0⟩).bidCountdown = some 41 := by
  have hquiet : ∀ d v : Int, 1 ≤ d → (d - v = 1 ∨ v - d = 1) →
      ¬ resyncSpecCond (some d) ((100 : Int) - 0) v := by
    rintro d v hd1 hd (h | h | h | ⟨x, hx, hgt⟩)
    · exact Option.noConfusion h
    · rw [Option.some.injEq] at h; omega
    · omega
    · rw [Option.some.injEq] at hx
      subst hx
      rcases hd with h1 | h1 <;> omega
  refine ⟨?_, ?_, ?_, ?_⟩
  · exact (resync_policy 100 ⟨some "0xa", 30⟩ initController (by decide)
      ⟨Phase.bidding, 40, 9⟩ initAuction rfl).1 (Or.inl rfl)
  · exact (resync_policy 100 ⟨some "0xa", 30⟩ ⟨none, none, false, some 29, 0⟩
      (by decide) ⟨Phase.bidding, 40, 9⟩ initAuction rfl).2.1
      (hquiet 29 30 (by norm_num) (Or.inr (by norm_num)))
  · exact (resync_policy 100 ⟨some "0xa", 30⟩ initController (by decide)
      ⟨Phase.bidding, 40, 9⟩ initAuction rfl).2.2.1 (Or.inl rfl)
  · exact (resync_policy 100 ⟨some "0xa", 30⟩ initController (by decide)
      ⟨Phase.bidding, 40, 9⟩ ⟨none, none, false, some 41, none, 0⟩ rfl).2.2.2
      (hquiet 41 40 (by norm_num) (Or.inl (by norm_num)))

/-- C4 (corrected).  `lastSyncTimestamp` is written on every auction-status
sample regardless of phase and of whether the displayed value was replaced,
and on every controller sample that carries a current controller; but a
controller sample without a current controller returns early and leaves
`lastSyncTimestamp` unchanged. -/
theorem lastSync_update_policy
    (now : Int) (st : AuctionInfo) (s : AuctionState)
    (c : ControllerInfo) (s' : ControllerState) :
    (onStatusSample now st s).lastSync = now ∧
    (hasCurrentController c = true →
      (onControllerSample now c s').lastSync = now) ∧
    (hasCurrentController c = false →
      (onControllerSample now c s').lastSync = s'.lastSync) := by
  refine ⟨?_, ?_, ?_⟩
  · obtain ⟨ph, tA, tR⟩ := st
    cases ph <;> simp [onStatusSample]
  · intro h; simp [onControllerSample, h]
  · intro h; simp [onControllerSample, h]

/-- C4 counterexample: a controller sample with `currentController` absent,
arriving 5000 ms after a last sync at time 0, leaves `lastSyncTimestamp` at 0
instead of updating it to the current time 5000. -/
theorem lastSync_update_counterexample :
    (onControllerSample 5000 ⟨none, 30⟩
      ⟨none, none, false, some 10, 0⟩).lastSync = 0 ∧
    (0 : Int) ≠ 5000 := by
  constructor
  · simp [onControllerSample, hasCurrentController]
  · decide

/-- Witness for `lastSync_update_policy` at concrete inputs: a bidding sample
and a controller-present sample stamp the sync time 7000; a no-controller
sample keeps the initial sync time 0. -/
theorem lastSync_update_policy_witness :
    (onStatusSample 7000 ⟨Phase.bidding, 10, 20⟩ initAuction).lastSync = 7000 ∧
    (onControllerSample 7000 ⟨some "0xa", 30⟩ initController).lastSync = 7000 ∧
    (onControllerSample 7000 ⟨none, 30⟩ initController).lastSync = initController.lastSync :=
  ⟨(lastSync_update_policy 7000 ⟨Phase.bidding, 10, 20⟩ initAuction
      ⟨some "0xa", 30⟩ initController).1,
   (lastSync_update_policy 7000 ⟨Phase.bidding, 10, 20⟩ initAuction
      ⟨some "0xa", 30⟩ initController).2.1 (by decide),
   (lastSync_update_policy 7000 ⟨Phase.bidding, 10, 20⟩ initAuction
      ⟨none, 30⟩ initController).2.2 (by decide)⟩

lemma atMostOne_step (a : AuctionAction) (s : AuctionState)
    (h : atMostOneCountdown s) : atMostOneCountdown (stepAuction a s) := by
  cases a with
  | sample now st =>
    obtain ⟨ph, tA, tR⟩ := st
    cases ph <;> simp [stepAuction, onStatusSample, atMostOneCountdown]
  | tickBid =>
    rcases h with h | h
    · exact Or.inl (by simp [stepAuction, h, tickCountdown])
    · exact Or.inr (by simp [stepAuction, h])
  | tickRound =>
    rcases h with h | h
    · exact Or.inl (by simp [stepAuction, h])
    · exact Or.inr (by simp [stepAuction, h, tickCountdown])

lemma atMostOne_run : ∀ (acts : List AuctionAction) (s : AuctionState),
    atMostOneCountdown s → atMostOneCountdown (runAuction acts s) := by
  intro acts
  induction acts with
  | nil => intro s h; simpa [runAuction] using h
  | cons a rest ih =>
    intro s h
    simp only [runAuction]
    exact ih _ (atMostOne_step a s h)

/-- C5.  In every state reachable from the initial render by samples and
ticks, at most one of the two countdowns is present; and a sample whose phase
does not belong to a countdown clears that countdown: any non-bidding sample
clears the bidding countdown, and any sample outside closing/resolving clears
the round-start countdown. -/
theorem countdown_phase_exclusion :
    (∀ acts : List AuctionAction, atMostOneCountdown (runAuction acts initAuction)) ∧
    (∀ (now : Int) (st : AuctionInfo) (s : AuctionState),
      st.currentPhase ≠ Phase.bidding →
      (onStatusSample now st s).bidCountdown = none) ∧
    (∀ (now : Int) (st : AuctionInfo) (s : AuctionState),
      st.currentPhase ≠ Phase.closing → st.currentPhase ≠ Phase.resolving →
      (onStatusSample now st s).roundStartCountdown = none) := by
  refine ⟨fun acts => atMostOne_run acts initAuction (Or.inl rfl), ?_, ?_⟩
  · intro now st s hph
    obtain ⟨ph, tA, tR⟩ := st
    simp only [AuctionInfo.currentPhase] at hph
    cases ph <;> simp_all [onStatusSample]
  · intro now st s hph1 hph2
    obtain ⟨ph, tA, tR⟩ := st
    simp only [AuctionInfo.currentPhase] at hph1 hph2
    cases ph <;> simp_all [onStatusSample]

/-- Witness for `countdown_phase_exclusion`: a bidding sample followed by a
tick keeps at most one countdown; a closing sample clears the bidding
countdown; a bidding sample clears the round-start countdown. -/
theorem countdown_phase_exclusion_witness :
    atMostOneCountdown
      (runAuction [AuctionAction.sample 0 ⟨Phase.bidding, 10, 20⟩,
        AuctionAction.tickBid] initAuction) ∧
    (onStatusSample 0 ⟨Phase.closing, 10, 20⟩
      ⟨none, none, false, some 7, none, 0⟩).bidCountdown = none ∧
    (onStatusSample 0 ⟨Phase.bidding, 10, 20⟩
      ⟨none, none, false, none, some 7, 0⟩).roundStartCountdown = none :=
  ⟨countdown_phase_exclusion.1 _,
   countdown_phase_exclusion.2.1 0 ⟨Phase.closing, 10, 20⟩
     ⟨none, none, false, some 7, none, 0⟩ (by decide),
   countdown_phase_exclusion.2.2 0 ⟨Phase.bidding, 10, 20⟩
     ⟨none, none, false, none, some 7, 0⟩ (by decide) (by decide)⟩

/-- C9.  A failed poll touches only the error message and the loading flag in
either component: the fetched data, the displayed countdowns and the sync
timestamp are all left in place, and a subsequent tick decrements the same
value it would have without the failure. -/
theorem poll_failure_preserves_state (msg : String)
    (s : AuctionState) (s' : ControllerState) :
    (auctionPollFailure msg s).status = s.status ∧
    (auctionPollFailure msg s).bidCountdown = s.bidCountdown ∧
    (auctionPollFailure msg s).roundStartCountdown = s.roundStartCountdown ∧
    (auctionPollFailure msg s).lastSync = s.lastSync ∧
    (controllerPollFailure msg s').controller = s'.controller ∧
    (controllerPollFailure msg s').displayed = s'.displayed ∧
    (controllerPollFailure msg s').lastSync = s'.lastSync ∧
    (tickControllerState (controllerPollFailure msg s')).displayed =
      (tickControllerState s').displayed :=
  ⟨rfl, rfl, rfl, rfl, rfl, rfl, rfl, rfl⟩

lemma take_cons_take {α : Type} (x : α) (l : List α) (k : Nat) (hk : k ≤ 20) :
    (x :: l.take 19).take k = (x :: l).take k := by
  cases k with
  | zero => simp
  | succ j =>
    simp only [List.take_succ_cons, List.take_take]
    rw [Nat.min_eq_left (by omega : j ≤ 19)]

lemma processEvents_transactions :
    ∀ (es : List (Int × TimeboostedTx)) (s : StreamState),
      s.transactions.length ≤ 20 →
      (processEvents es s).transactions =
        ((es.map stampTx).reverse ++ s.transactions).take 20 := by
  intro es
  induction es with
  | nil =>
    intro s hs
    simp [processEvents, List.take_of_length_le hs]
  | cons p rest ih =>
    intro s hs
    obtain ⟨t, e⟩ := p
    have hlen : (onTransaction t e s).transactions.length ≤ 20 := by
      simp only [onTransaction, List.length_cons, List.length_take]
      omega
    rw [show processEvents ((t, e) :: rest) s
          = processEvents rest (onTransaction t e s) from rfl,
        ih (onTransaction t e s) hlen]
    simp only [onTransaction, List.map_cons, List.reverse_cons, List.append_assoc,
      List.cons_append, List.nil_append]
    rw [List.take_append_eq_append_take, List.take_append_eq_append_take]
    congr 1
    exact take_cons_take _ _ _ (Nat.sub_le 20 _)

/-- C3.  Delivering any sequence of events after a buffer reset leaves the
buffer holding exactly the most recent `min 20 N` of them, newest first in
receipt order: the buffer equals the reversed arrival list truncated to 20,
so when more than 20 arrive exactly the oldest ones are dropped. -/
theorem feed_buffer_contents (es : List (Int × TimeboostedTx)) (s : StreamState) :
    (processEvents es (startStreaming s)).transactions =
      ((es.map stampTx).reverse).take 20 ∧
    (processEvents es (startStreaming s)).transactions.length = min 20 es.length := by
  have h1 : (processEvents es (startStreaming s)).transactions =
      ((es.map stampTx).reverse).take 20 := by
    simpa [startStreaming] using
      processEvents_transactions es (startStreaming s) (by simp [startStreaming])
  refine ⟨h1, ?_⟩
  rw [h1, List.length_take, List.length_reverse, List.length_map]

lemma processEvents_totalCount :
    ∀ (es : List (Int × TimeboostedTx)) (s : StreamState),
      (processEvents es s).totalCount = s.totalCount + es.length := by
  intro es
  induction es with
  | nil => intro s; simp [processEvents]
  | cons p rest ih =>
    intro s
    obtain ⟨t, e⟩ := p
    rw [show processEvents ((t, e) :: rest) s
          = processEvents rest (onTransaction t e s) from rfl, ih]
    simp only [onTransaction, List.length_cons]
    omega

/-- C6.  The total-received counter after `N` deliveries since the last reset
equals exactly `N`, independent of buffer truncation. -/
theorem total_counter (es : List (Int × TimeboostedTx)) (s : StreamState) :
    (processEvents es (startStreaming s)).totalCount = es.length := by
  rw [processEvents_totalCount]
  simp [startStreaming]

/-- C7.  The freshness flag of a buffered event, recomputed at evaluation
time `t` from the event's arrival stamp, is true exactly when strictly less
than 3000 ms have passed since `receivedAt`; and the stamp an event carries
is the clock reading at its arrival. -/
theorem freshness_flag (t : Int) (e : TimedTx)
    (now : Int) (tx : TimeboostedTx) (s : StreamState) :
    (isNew t e = true ↔ t - e.timestamp < 3000) ∧
    (onTransaction now tx s).transactions.head? = some ⟨tx, now⟩ := by
  constructor
  · simp [isNew]
  · rfl

/-- C8.  The stream error callback records the error, stops streaming, and
leaves the buffer contents and the total-received counter untouched. -/
theorem stream_error_handling (msg : String) (s : StreamState) :
    ((onStreamError msg s).error).isSome = true ∧
    (onStreamError msg s).isStreaming = false ∧
    (onStreamError msg s).transactions = s.transactions ∧
    (onStreamError msg s).totalCount = s.totalCount :=
  ⟨rfl, rfl, rfl, rfl⟩
